import Mathlib

/-!
Verification of the badminton score-keeping core (match reducer, position
resolver, serve rotation, stats engine) against its natural-language
specification.  The definitions below are a shallow embedding of the
TypeScript sources:

 * src/utils/matchReducer.ts      (initialState, createSnapshot, matchReducer)
 * src/utils/getTeamPositions.ts  (getTeamPositions)
 * src/utils/statsUtils.ts        (calculateGameStats)
 * src/types/match.ts             (MatchState, PointSnapshot, GameSnapshot, actions)

Modelling conventions:
 * JS numbers holding scores/indices are Nat (the code only ever increments
   them from 0); JS subtraction in comparisons is done in Int.
 * Nullable fields (string | null, "A" | "B" | null) are Option.
 * Out-of-bounds array reads that the code stores into nullable slots are
   modelled with List.get? (JS undefined ~ none); reads that feed further
   string computations use List.getD with "" (only reachable on degenerate
   inputs that every theorem below excludes by hypothesis).
 * `Math.max(0, arr.indexOf(x))` is `safeIdx`.
-/

namespace BadmintonScore

/-- The two sides of the court; TS string literals "A" | "B". -/
inductive Side where
  | A : Side
  | B : Side
deriving DecidableEq, Repr

/-- Player rosters / position lists (types/match.ts, `Players`). -/
structure Players where
  teamA : List String
  teamB : List String
deriving DecidableEq, Repr

/-- One full state snapshot pushed on the undo stack (types/match.ts, `PointSnapshot`). -/
structure PointSnapshot where
  pointsA : Nat
  setsA : Nat
  pointsB : Nat
  setsB : Nat
  serverSide : Option Side
  currentServer : Option String
  currentReceiver : Option String
  nextServer : Option String
  serveIndex : Nat
  players : Players
deriving DecidableEq, Repr

/-- A finished (or in-progress) set record (types/match.ts, `GameSnapshot`). -/
structure GameSnapshot where
  gameNumber : Nat
  pointsA : Nat
  pointsB : Nat
  winnerSide : Option Side
  duration : Int
  pointHistory : List PointSnapshot
deriving DecidableEq, Repr

/-- The reducer's whole state (types/match.ts, `MatchState`). -/
structure MatchState where
  pointsA : Nat
  setsA : Nat
  pointsB : Nat
  setsB : Nat
  players : Players
  currentSetPointHistory : List PointSnapshot
  serverSide : Option Side
  currentServer : Option String
  currentReceiver : Option String
  nextServer : Option String
  serveOrder : List String
  serveIndex : Nat
  scoringSystem : Nat
  currentSetStartTime : Int
  setFinishData : Option GameSnapshot
  matchHistory : List GameSnapshot
  receiverOffsetA : Nat
  receiverOffsetB : Nat
  lastTwoPointWinners : List Side
deriving DecidableEq, Repr

/-- The action union dispatched to the reducer (types/match.ts, `MatchAction`). -/
inductive MatchAction where
  | startMatch (newPlayers : Players) (firstServe : Side)
      (firstServerName : String) (opponentReceiverName : String)
      (scoringSystemParam : Option Nat) (startTime : Int)
  | increment (side : Side) (maxPoint : Nat) (time : Int)
  | continueNextSet (startTime : Int) (nextServerName : String) (nextReceiverName : String)
  | undo
  | resetHistory
  | setSetFinishData (d : Option GameSnapshot)
  | clearPointHistory
  | setNextServer (s : String)
  | setNextReceiver (s : String)
deriving DecidableEq, Repr

/-- First index of `x` in `l` (JS `Array.prototype.indexOf`, except that a
missing element yields `l.length` instead of -1; all uses below guard with
membership first, mirroring the `Math.max(0, _)` / `!== -1` guards). -/
def indexOfStr : List String → String → Nat
  | [], _ => 0
  | a :: rest, x => if a = x then 0 else indexOfStr rest x + 1

/-- `Math.max(0, list.indexOf(x))` as used in matchReducer.ts and getTeamPositions.ts. -/
def safeIdx (l : List String) (x : String) : Nat :=
  if x ∈ l then indexOfStr l x else 0

/-- matchReducer.ts line 15: the default, clean state for a new match. -/
def initialState : MatchState :=
  { pointsA := 0
    setsA := 0
    pointsB := 0
    setsB := 0
    players := { teamA := [], teamB := [] }
    currentSetPointHistory := []
    serverSide := none
    currentServer := none
    currentReceiver := none
    nextServer := none
    serveOrder := []
    serveIndex := 0
    scoringSystem := 21
    currentSetStartTime := 0
    setFinishData := none
    matchHistory := []
    receiverOffsetA := 0
    receiverOffsetB := 0
    lastTwoPointWinners := [] }

/-- matchReducer.ts line 59, `createSnapshot`: freeze the undo-relevant fields. -/
def createSnapshot (state : MatchState) : PointSnapshot :=
  { pointsA := state.pointsA
    setsA := state.setsA
    pointsB := state.pointsB
    setsB := state.setsB
    serverSide := state.serverSide
    currentServer := state.currentServer
    currentReceiver := state.currentReceiver
    nextServer := state.nextServer
    serveIndex := state.serveIndex
    players := { teamA := state.players.teamA, teamB := state.players.teamB } }

/-- getTeamPositions.ts line 52: resolve each side's left/right court slots.
Team A's pair is documented `[left, right]`, team B's pair `[right, left]`. -/
def getTeamPositions (servingSide : Side) (team : Players)
    (serverName receiverName : String) (pointsA pointsB : Nat) : Players :=
  let teamA := team.teamA
  let teamB := team.teamB
  if teamA.length = 1 ∧ teamB.length = 1 then
    { teamA := [teamA.getD 0 "", teamA.getD 0 ""]
      teamB := [teamB.getD 0 "", teamB.getD 0 ""] }
  else
    let servingSiderTeam := if servingSide = Side.A then teamA else teamB
    let opponentTeam := if servingSide = Side.A then teamB else teamA
    let sIdx := safeIdx servingSiderTeam serverName
    let oIdx := safeIdx opponentTeam receiverName
    let server := servingSiderTeam.getD sIdx ""
    let partnerServer := servingSiderTeam.getD (1 - sIdx) ""
    let receiver := opponentTeam.getD oIdx ""
    let partnerReceiver := opponentTeam.getD (1 - oIdx) ""
    let isEvenA := pointsA % 2 = 0
    let isEvenB := pointsB % 2 = 0
    if pointsA = 0 ∧ pointsB = 0 then
      if servingSide = Side.A then
        { teamA := [partnerServer, server], teamB := [receiver, partnerReceiver] }
      else
        { teamA := [partnerReceiver, receiver], teamB := [server, partnerServer] }
    else
      if servingSide = Side.A ∧ isEvenA then
        { teamA := [partnerServer, server], teamB := [teamB.getD 0 "", teamB.getD 1 ""] }
      else if servingSide = Side.A ∧ ¬isEvenA then
        { teamA := [server, partnerServer], teamB := [teamB.getD 0 "", teamB.getD 1 ""] }
      else if servingSide = Side.B ∧ isEvenB then
        { teamA := [teamA.getD 0 "", teamA.getD 1 ""], teamB := [server, partnerServer] }
      else if servingSide = Side.B ∧ ¬isEvenB then
        { teamA := [teamA.getD 0 "", teamA.getD 1 ""], teamB := [partnerServer, server] }
      else
        { teamA := [teamA.getD 0 "", teamA.getD 1 ""], teamB := [teamB.getD 0 "", teamB.getD 1 ""] }

/-- matchReducer.ts lines 97-164, the START_MATCH case. -/
def startMatchCase (newPlayers : Players) (firstServe : Side)
    (firstServerName opponentReceiverName : String)
    (scoringSystemParam : Option Nat) (startTime : Int) : MatchState :=
  -- `single` in the source is `teamA.length === 1`; the test is inlined below.
  let teamPositions :=
    if newPlayers.teamA.length = 1 then newPlayers
    else getTeamPositions firstServe newPlayers firstServerName opponentReceiverName 0 0
  let rotation : List String :=
    if newPlayers.teamA.length = 1 then
      [if firstServe = Side.A then newPlayers.teamA.getD 0 "" else newPlayers.teamB.getD 0 "",
       if firstServe = Side.A then newPlayers.teamB.getD 0 "" else newPlayers.teamA.getD 0 ""]
    else
      let firstServerTeam := if firstServe = Side.A then newPlayers.teamA else newPlayers.teamB
      let opponentTeam := if firstServe = Side.A then newPlayers.teamB else newPlayers.teamA
      let sIdx := safeIdx firstServerTeam firstServerName
      let oIdx := safeIdx opponentTeam opponentReceiverName
      -- rotation = [a, d, c, b]: server, receiver's partner, server's partner, receiver
      [firstServerTeam.getD sIdx "", opponentTeam.getD (1 - oIdx) "",
       firstServerTeam.getD (1 - sIdx) "", opponentTeam.getD oIdx ""]
  let server : Option String :=
    if newPlayers.teamA.length = 1 then
      (if firstServe = Side.A then newPlayers.teamA.get? 0 else newPlayers.teamB.get? 0)
    else some firstServerName
  let receiver : Option String :=
    if newPlayers.teamA.length = 1 then
      (if firstServe = Side.A then newPlayers.teamB.get? 0 else newPlayers.teamA.get? 0)
    else some opponentReceiverName
  let startIndex := if firstServerName ∈ rotation then indexOfStr rotation firstServerName else 0
  { initialState with
    players := teamPositions
    scoringSystem := scoringSystemParam.getD initialState.scoringSystem
    currentSetStartTime := startTime
    serveOrder := rotation
    serveIndex := startIndex
    nextServer := rotation.get? ((startIndex + 1) % rotation.length)
    serverSide := some firstServe
    currentServer := server
    currentReceiver := receiver }

/-- matchReducer.ts lines 206-212: scan adjacent history pairs for the scoring side. -/
def pairWinners : List PointSnapshot → List Side
  | a :: b :: rest =>
      (if a.pointsA < b.pointsA then [Side.A]
       else if a.pointsB < b.pointsB then [Side.B]
       else []) ++ pairWinners (b :: rest)
  | _ => []

/-- matchReducer.ts lines 179-183: the set-completion predicate on provisional scores. -/
def isSetFinishedPred (scoringSystem newPointsA newPointsB maxPoint : Nat) : Prop :=
  (scoringSystem ≤ newPointsA ∧ 2 ≤ (newPointsA : Int) - (newPointsB : Int)) ∨
  (scoringSystem ≤ newPointsB ∧ 2 ≤ (newPointsB : Int) - (newPointsA : Int)) ∨
  newPointsA = maxPoint ∨ newPointsB = maxPoint

instance (s a b m : Nat) : Decidable (isSetFinishedPred s a b m) := by
  unfold isSetFinishedPred
  infer_instance

/-- matchReducer.ts lines 230-254: the candidate default next server proposed
after a set finish (before being forced onto the winning team's roster).
`state.serveOrder.indexOf(state.currentServer!)` is modelled by the match on
`state.currentServer` together with the membership test (indexOf of a missing
or undefined name yields -1, taking the fallback branch). -/
def defaultNextServerRaw (state : MatchState) (winnerTeam : List String)
    (lastTwo : List Side) : String :=
  if lastTwo.length = 2 ∧ 0 < state.serveOrder.length then
    if lastTwo.getD 0 Side.A = lastTwo.getD 1 Side.B then
      state.currentServer.getD (winnerTeam.getD 0 "")
    else
      match state.currentServer with
      | some c =>
          if c ∈ state.serveOrder then
            state.serveOrder.getD ((indexOfStr state.serveOrder c + 2) % state.serveOrder.length) ""
          else winnerTeam.getD 0 ""
      | none => winnerTeam.getD 0 ""
  else
    state.currentServer.getD (winnerTeam.getD 0 "")

/-- matchReducer.ts lines 256-259: force the default server onto the winning
team's roster. -/
def forceOntoWinner (winnerTeam : List String) (c : String) : String :=
  if c ∈ winnerTeam then c else winnerTeam.getD 0 ""

/-- matchReducer.ts lines 186-300: the INCREMENT case, set-finished branch. -/
def incrementFinish (state : MatchState) (time : Int)
    (currentStateSnapshot : PointSnapshot) (newPointsA newPointsB : Nat) : MatchState :=
  let winnerSide := if newPointsB < newPointsA then Side.A else Side.B
  let newSetsA := state.setsA + (if winnerSide = Side.A then 1 else 0)
  let newSetsB := state.setsB + (if winnerSide = Side.B then 1 else 0)
  let finalPointSnapshot : PointSnapshot :=
    { currentStateSnapshot with
      pointsA := newPointsA, pointsB := newPointsB, setsA := newSetsA, setsB := newSetsB }
  let gameHistory := state.currentSetPointHistory ++ [currentStateSnapshot, finalPointSnapshot]
  let winners := pairWinners gameHistory
  let lastTwo := winners.drop (winners.length - 2)
  let data : GameSnapshot :=
    { gameNumber := state.matchHistory.length + 1
      pointsA := newPointsA
      pointsB := newPointsB
      duration := time - state.currentSetStartTime
      winnerSide := some winnerSide
      pointHistory := gameHistory }
  let winnerTeam := if winnerSide = Side.A then state.players.teamA else state.players.teamB
  let loserTeam := if winnerSide = Side.A then state.players.teamB else state.players.teamA
  let defaultNextServer := forceOntoWinner winnerTeam (defaultNextServerRaw state winnerTeam lastTwo)
  let isSingle := state.players.teamA.length = 1
  let teamPositions :=
    if isSingle then state.players
    else getTeamPositions winnerSide state.players defaultNextServer
           (state.currentReceiver.getD "") newPointsA newPointsB
  let defaultNextReceiver : Option String :=
    if winnerSide = Side.A then loserTeam.get? 0 else loserTeam.get? 1
  { state with
    pointsA := newPointsA
    pointsB := newPointsB
    setsA := newSetsA
    setsB := newSetsB
    setFinishData := some data
    matchHistory := state.matchHistory ++ [data]
    lastTwoPointWinners := lastTwo
    currentServer := some defaultNextServer
    currentReceiver := defaultNextReceiver
    players := teamPositions
    currentSetPointHistory := [] }

/-- matchReducer.ts lines 303-367: the INCREMENT case, point-in-progress branch. -/
def incrementInProgress (state : MatchState) (side : Side)
    (currentStateSnapshot : PointSnapshot) (newPointsA newPointsB : Nat) : MatchState :=
  let isEvenA := newPointsA % 2 = 0
  let isEvenB := newPointsB % 2 = 0
  let prevServerSide := state.serverSide
  let isServeChange := prevServerSide ≠ some side
  let serveChangeTaken := isServeChange ∧ 0 < state.serveOrder.length
  let newServeIndex :=
    if serveChangeTaken then (state.serveIndex + 1) % state.serveOrder.length
    else state.serveIndex
  let newServer : Option String :=
    if serveChangeTaken then some (state.serveOrder.getD newServeIndex "")
    else state.currentServer
  let newNext : Option String :=
    if serveChangeTaken then state.serveOrder.get? ((newServeIndex + 1) % state.serveOrder.length)
    else state.nextServer
  let newServerSide : Side :=
    if serveChangeTaken then
      (if state.serveOrder.getD newServeIndex "" ∈ state.players.teamA then Side.A else Side.B)
    else prevServerSide.getD side
  let isSingle := state.players.teamA.length = 1
  let teamPositions :=
    if isSingle then state.players
    else getTeamPositions side state.players (newServer.getD "")
           (state.currentReceiver.getD "") newPointsA newPointsB
  let newReceiver : Option String :=
    if isSingle then
      (if newServerSide = Side.A then teamPositions.teamB.get? 0 else teamPositions.teamA.get? 0)
    else
      if newServerSide = Side.A ∧ isEvenA then teamPositions.teamB.get? 0
      else if newServerSide = Side.A ∧ ¬isEvenA then teamPositions.teamB.get? 1
      else if newServerSide = Side.B ∧ isEvenB then teamPositions.teamA.get? 1
      else teamPositions.teamA.get? 0
  { state with
    pointsA := newPointsA
    pointsB := newPointsB
    currentSetPointHistory := state.currentSetPointHistory ++ [currentStateSnapshot]
    serverSide := some newServerSide
    currentServer := newServer
    nextServer := newNext
    serveIndex := newServeIndex
    currentReceiver := newReceiver
    players := teamPositions }

/-- matchReducer.ts lines 168-368: the INCREMENT case. -/
def incrementCase (state : MatchState) (side : Side) (maxPoint : Nat) (time : Int) : MatchState :=
  let currentStateSnapshot := createSnapshot state
  let newPointsA := if side = Side.A then state.pointsA + 1 else state.pointsA
  let newPointsB := if side = Side.B then state.pointsB + 1 else state.pointsB
  if isSetFinishedPred state.scoringSystem newPointsA newPointsB maxPoint then
    incrementFinish state time currentStateSnapshot newPointsA newPointsB
  else
    incrementInProgress state side currentStateSnapshot newPointsA newPointsB

/-- matchReducer.ts lines 372-383: the UNDO case. -/
def undoCase (state : MatchState) : MatchState :=
  match state.currentSetPointHistory.getLast? with
  | none => state
  | some lastState =>
      { state with
        pointsA := lastState.pointsA
        setsA := lastState.setsA
        pointsB := lastState.pointsB
        setsB := lastState.setsB
        serverSide := lastState.serverSide
        currentServer := lastState.currentServer
        currentReceiver := lastState.currentReceiver
        nextServer := lastState.nextServer
        serveIndex := lastState.serveIndex
        players := lastState.players
        currentSetPointHistory := state.currentSetPointHistory.dropLast }

/-- matchReducer.ts lines 387-451: the CONTINUE_NEXT_SET case.  The source
passes `state.serverSide!` (a non-null assertion) to getTeamPositions; a null
value would flow through getTeamPositions' `servingSide === "A"` tests exactly
like "B" does on the 0-0 branch taken here, so it is modelled as `getD Side.B`. -/
def continueNextSetCase (state : MatchState) (startTime : Int)
    (nextServerName nextReceiverName : String) : MatchState :=
  let players := state.players
  let isSingle := players.teamA.length = 1
  let newServeOrder : List String :=
    if isSingle then [nextServerName, nextReceiverName]
    else if 1 < players.teamA.length then
      let serverTeam := if nextServerName ∈ players.teamA then players.teamA else players.teamB
      let receiverTeam := if nextReceiverName ∈ players.teamA then players.teamA else players.teamB
      let sIdx := safeIdx serverTeam nextServerName
      let oIdx := safeIdx receiverTeam nextReceiverName
      [nextServerName, receiverTeam.getD (1 - oIdx) "",
       serverTeam.getD (1 - sIdx) "", nextReceiverName]
    else state.serveOrder
  let teamPositions :=
    if isSingle then state.players
    else getTeamPositions (state.serverSide.getD Side.B) state.players
           nextServerName nextReceiverName 0 0
  { state with
    pointsA := 0
    pointsB := 0
    currentServer := some nextServerName
    serverSide := some (if nextServerName ∈ players.teamA then Side.A else Side.B)
    currentReceiver := some nextReceiverName
    currentSetStartTime := startTime
    setFinishData := none
    currentSetPointHistory := []
    lastTwoPointWinners := []
    serveOrder := newServeOrder
    serveIndex := 0
    nextServer := newServeOrder.get? 1
    players := teamPositions }

/-- matchReducer.ts line 90, `matchReducer`: the central transition function. -/
def matchReducer (state : MatchState) (action : MatchAction) : MatchState :=
  match action with
  | .startMatch newPlayers firstServe firstServerName opponentReceiverName scoringSystemParam startTime =>
      startMatchCase newPlayers firstServe firstServerName opponentReceiverName scoringSystemParam startTime
  | .increment side maxPoint time => incrementCase state side maxPoint time
  | .undo => undoCase state
  | .continueNextSet startTime nextServerName nextReceiverName =>
      continueNextSetCase state startTime nextServerName nextReceiverName
  | .resetHistory => { state with matchHistory := [] }
  | .setSetFinishData d => { state with setFinishData := d }
  | .clearPointHistory => { state with currentSetPointHistory := [] }
  | .setNextServer s => { state with currentServer := some s }
  | .setNextReceiver s => { state with currentReceiver := some s }

/-- statsUtils.ts line 30, `GameStats`. -/
structure GameStats where
  totalPointsWonA : Nat
  totalPointsWonB : Nat
  totalPointsPlayed : Nat
  mostConsecutivePointsA : Nat
  mostConsecutivePointsB : Nat
  gamePointsA : Nat
  gamePointsB : Nat
deriving DecidableEq, Repr

/-- statsUtils.ts lines 79-124, one iteration of the history loop: streak
update followed by the game-point checks on `curr`. -/
def statsStep (scoringSystem : Nat) (prev curr : PointSnapshot)
    (streakA streakB : Nat) (acc : GameStats) : Nat × Nat × GameStats :=
  let (streakA, streakB, acc) :=
    if prev.pointsA < curr.pointsA then
      let sA := streakA + 1
      (sA, 0, if acc.mostConsecutivePointsA < sA then { acc with mostConsecutivePointsA := sA } else acc)
    else if prev.pointsB < curr.pointsB then
      let sB := streakB + 1
      (0, sB, if acc.mostConsecutivePointsB < sB then { acc with mostConsecutivePointsB := sB } else acc)
    else (streakA, streakB, acc)
  let gamePointThreshold := scoringSystem - 1
  let deuceThreshold := scoringSystem
  let acc := if curr.pointsA = gamePointThreshold ∧ curr.pointsB < gamePointThreshold then
      { acc with gamePointsA := acc.gamePointsA + 1 } else acc
  let acc := if curr.pointsB = gamePointThreshold ∧ curr.pointsA < gamePointThreshold then
      { acc with gamePointsB := acc.gamePointsB + 1 } else acc
  let acc := if deuceThreshold ≤ curr.pointsA ∧ curr.pointsA = curr.pointsB + 1 then
      { acc with gamePointsA := acc.gamePointsA + 1 } else acc
  let acc := if deuceThreshold ≤ curr.pointsB ∧ curr.pointsB = curr.pointsA + 1 then
      { acc with gamePointsB := acc.gamePointsB + 1 } else acc
  (streakA, streakB, acc)

/-- statsUtils.ts lines 79-124: the `for (let i = 1; ...)` loop over adjacent pairs. -/
def statsScan (scoringSystem : Nat) (prev : PointSnapshot) :
    List PointSnapshot → Nat → Nat → GameStats → GameStats
  | [], _, _, acc => acc
  | curr :: rest, streakA, streakB, acc =>
      let r := statsStep scoringSystem prev curr streakA streakB acc
      statsScan scoringSystem curr rest r.1 r.2.1 r.2.2

/-- statsUtils.ts line 61, `calculateGameStats`. -/
def calculateGameStats (game : GameSnapshot) (scoringSystem : Nat) : GameStats :=
  let stats0 : GameStats :=
    { totalPointsWonA := game.pointsA
      totalPointsWonB := game.pointsB
      totalPointsPlayed := game.pointHistory.length
      mostConsecutivePointsA := 0
      mostConsecutivePointsB := 0
      gamePointsA := 0
      gamePointsB := 0 }
  match game.pointHistory with
  | [] => stats0
  | first :: rest => statsScan scoringSystem first rest 0 0 stats0

/-! ## Derived definitions used by the theorems -/

/-- The provisional score of side A after `IncrementPoint(side)`
(matchReducer.ts line 173). -/
def provisionalA (s : MatchState) (side : Side) : Nat :=
  if side = Side.A then s.pointsA + 1 else s.pointsA

/-- The provisional score of side B after `IncrementPoint(side)`
(matchReducer.ts line 174). -/
def provisionalB (s : MatchState) (side : Side) : Nat :=
  if side = Side.B then s.pointsB + 1 else s.pointsB

/-- Modelled from the spec: "a set ends when
`(sideScore ≥ target AND sideScore − otherScore ≥ 2) OR sideScore == hardCap`",
instantiated for each of the two sides.  Stated independently of the code's
`isSetFinishedPred` so the two can be compared. -/
def specSetFinished (target pA pB cap : Nat) : Prop :=
  ((target ≤ pA ∧ 2 ≤ (pA : Int) - (pB : Int)) ∨ pA = cap) ∨
  ((target ≤ pB ∧ 2 ≤ (pB : Int) - (pA : Int)) ∨ pB = cap)

instance (t a b c : Nat) : Decidable (specSetFinished t a b c) := by
  unfold specSetFinished
  infer_instance

/-- Reachability from the initial module-level state under arbitrary dispatched actions. -/
inductive Reach : MatchState → Prop where
  | init : Reach initialState
  | step (s : MatchState) (a : MatchAction) (hs : Reach s) : Reach (matchReducer s a)

/-- A two-snapshot history: the initial 0-0 snapshot and the snapshot after a
single point won by side A. -/
def c5Snap0 : PointSnapshot :=
  { pointsA := 0, setsA := 0, pointsB := 0, setsB := 0, serverSide := some Side.A,
    currentServer := some "x", currentReceiver := some "y", nextServer := none,
    serveIndex := 0, players := { teamA := ["x"], teamB := ["y"] } }

def c5Snap1 : PointSnapshot :=
  { c5Snap0 with pointsA := 1 }

def c5Game : GameSnapshot :=
  { gameNumber := 1, pointsA := 1, pointsB := 0, winnerSide := some Side.A,
    duration := 10, pointHistory := [c5Snap0, c5Snap1] }

/-- A concrete singles state a few points into a game (used as a witness input). -/
def c2State : MatchState :=
  { initialState with
    players := { teamA := ["Alice"], teamB := ["Bob"] }
    serverSide := some Side.A
    currentServer := some "Alice"
    currentReceiver := some "Bob"
    serveOrder := ["Alice", "Bob"]
    pointsA := 3
    pointsB := 4 }

/-- A concrete doubles state where side B is one point from taking the set. -/
def c6State : MatchState :=
  { initialState with
    players := { teamA := ["a1", "a2"], teamB := ["b1", "b2"] }
    pointsA := 10
    pointsB := 20
    serverSide := some Side.B
    currentServer := some "b1"
    currentReceiver := some "a1"
    serveOrder := ["b1", "a1", "b2", "a2"] }

/-- Modelled from the spec's wording "PartnerOfServer" / "PartnerOfReceiver":
the other member of a two-player pair. -/
def partnerIn (pair : List String) (x : String) : String :=
  if pair.getD 0 "" = x then pair.getD 1 "" else pair.getD 0 ""

/-- A concrete doubles state mid-set with side A serving (used as a witness input). -/
def c4State : MatchState :=
  { initialState with
    players := { teamA := ["a1", "a2"], teamB := ["b1", "b2"] }
    pointsA := 2
    pointsB := 3
    serverSide := some Side.A
    currentServer := some "a1"
    currentReceiver := some "b1"
    serveOrder := ["a1", "b1", "a2", "b2"]
    serveIndex := 0 }

/-! ### Definitions for the server/receiver reachability invariant (C8) -/

/-- The roster of a side. -/
def rosterOf (A0 B0 : List String) : Side → List String
  | Side.A => A0
  | Side.B => B0

/-- The opposite side. -/
def otherSide : Side → Side
  | Side.A => Side.B
  | Side.B => Side.A

/-- A live (no pending set-finish) server/receiver configuration: a declared
serving side, a server on that side's roster, and a receiver on the other
side's roster. -/
def LiveOK (A0 B0 : List String) (sd : Option Side) (srv rcv : Option String) : Prop :=
  ∃ d p q, sd = some d ∧ srv = some p ∧ p ∈ rosterOf A0 B0 d ∧
    rcv = some q ∧ q ∈ rosterOf A0 B0 (otherSide d)

/-- A pending (set just finished) server/receiver configuration: a server on
one roster and a receiver that is absent or on the other roster (the stored
serving side may be stale here). -/
def PendOK (A0 B0 : List String) (srv rcv : Option String) : Prop :=
  ∃ d p, srv = some p ∧ p ∈ rosterOf A0 B0 d ∧
    (rcv = none ∨ ∃ q, rcv = some q ∧ q ∈ rosterOf A0 B0 (otherSide d))

/-- The invariant carried by every snapshot on the undo stack. -/
def SnapInv (A0 B0 : List String) (snap : PointSnapshot) : Prop :=
  snap.players.teamA.Perm A0 ∧ snap.players.teamB.Perm B0 ∧
  LiveOK A0 B0 snap.serverSide snap.currentServer snap.currentReceiver

/-- The inductive state invariant used to prove that the receiver never
equals the server. -/
def StateInv (A0 B0 : List String) (s : MatchState) : Prop :=
  s.players.teamA.Perm A0 ∧ s.players.teamB.Perm B0 ∧
  (∀ x ∈ s.serveOrder, x ∈ A0 ∨ x ∈ B0) ∧
  (s.setFinishData = none → LiveOK A0 B0 s.serverSide s.currentServer s.currentReceiver) ∧
  (s.setFinishData ≠ none →
    PendOK A0 B0 s.currentServer s.currentReceiver ∧ s.currentSetPointHistory = []) ∧
  (∀ snap ∈ s.currentSetPointHistory, SnapInv A0 B0 snap)

/-- Valid rosters in the sense of the claim: one or two players per side,
all names distinct. -/
def ValidRosters (A0 B0 : List String) : Prop :=
  ((A0.length = 1 ∧ B0.length = 1) ∨ (A0.length = 2 ∧ B0.length = 2)) ∧
  (A0 ++ B0).Nodup

/-- The event alphabet of the claim, with the protocol constraints of the
amended claim: `IncrementPoint` only while no set-finish is pending, and
`StartNextSet` naming a server on one roster and a receiver on the other. -/
def OkayEvent (A0 B0 : List String) (s : MatchState) : MatchAction → Prop
  | .increment _ _ _ => s.setFinishData = none
  | .continueNextSet _ srv rcv => (srv ∈ A0 ∧ rcv ∈ B0) ∨ (srv ∈ B0 ∧ rcv ∈ A0)
  | .undo => True
  | .resetHistory => True
  | _ => False

/-- States reachable from a valid `StartMatch` on rosters `A0`/`B0` by
`IncrementPoint`, `Undo`, `StartNextSet` and `ResetHistory` events obeying
`OkayEvent`. -/
inductive ReachC8 (A0 B0 : List String) : MatchState → Prop where
  | start (firstServe : Side) (srv rcv : String) (sys : Option Nat) (t : Int)
      (hsrv : srv ∈ rosterOf A0 B0 firstServe)
      (hrcv : rcv ∈ rosterOf A0 B0 (otherSide firstServe)) :
      ReachC8 A0 B0 (matchReducer initialState
        (.startMatch { teamA := A0, teamB := B0 } firstServe srv rcv sys t))
  | step (s : MatchState) (a : MatchAction) (hs : ReachC8 A0 B0 s)
      (ha : OkayEvent A0 B0 s a) : ReachC8 A0 B0 (matchReducer s a)

/-! ## General helper lemmas -/

theorem getD_mem_of_lt {l : List String} {n : Nat} (d : String) (h : n < l.length) :
    l.getD n d ∈ l := by
  rw [List.getD_eq_getElem l d h]
  exact List.getElem_mem h

theorem get?_eq_getD_of_lt {l : List String} {n : Nat} (d : String) (h : n < l.length) :
    l.get? n = some (l.getD n d) := by
  rw [List.getD_eq_getElem l d h, List.get?_eq_getElem?, List.getElem?_eq_getElem h]

theorem mem_of_getLast_some {l : List PointSnapshot} {a : PointSnapshot}
    (h : l.getLast? = some a) : a ∈ l := by
  have := List.mem_getLast?_eq_getLast (l := l) (x := a) (by simp [h])
  obtain ⟨hne, rfl⟩ := this
  exact List.getLast_mem hne

/-! ## C9: Undo on an empty current-set history is a defined no-op, and idempotent there -/

/-- C9. If the current set's point history is empty, `Undo` returns the state
entirely unchanged (a defined no-op, not an error), and therefore applying
`Undo` twice from such a state is the same as applying it once. -/
theorem undo_empty_history_noop (s : MatchState) (h : s.currentSetPointHistory = []) :
    matchReducer s .undo = s ∧
    matchReducer (matchReducer s .undo) .undo = matchReducer s .undo := by
  have h1 : matchReducer s .undo = s := by
    simp [matchReducer, undoCase, h]
  exact ⟨h1, by rw [h1]; exact h1⟩

/-- Witness for C9 at a concrete state (the initial state has empty history). -/
theorem undo_empty_history_noop_witness :
    matchReducer initialState .undo = initialState ∧
    matchReducer (matchReducer initialState .undo) .undo = matchReducer initialState .undo :=
  undo_empty_history_noop initialState rfl

/-! ## C10: the receiver-offset fields are identically zero in every reachable state -/

theorem incrementCase_receiverOffsets (st : MatchState) (side : Side) (mp : Nat) (t : Int) :
    (incrementCase st side mp t).receiverOffsetA = st.receiverOffsetA ∧
    (incrementCase st side mp t).receiverOffsetB = st.receiverOffsetB := by
  unfold incrementCase
  by_cases hp : isSetFinishedPred st.scoringSystem
      (if side = Side.A then st.pointsA + 1 else st.pointsA)
      (if side = Side.B then st.pointsB + 1 else st.pointsB) mp
  · rw [if_pos hp]; exact ⟨rfl, rfl⟩
  · rw [if_neg hp]; exact ⟨rfl, rfl⟩

theorem receiverOffsets_step (s : MatchState) (a : MatchAction)
    (h : s.receiverOffsetA = 0 ∧ s.receiverOffsetB = 0) :
    (matchReducer s a).receiverOffsetA = 0 ∧ (matchReducer s a).receiverOffsetB = 0 := by
  cases a with
  | startMatch np fs sn rn sys t =>
      exact ⟨rfl, rfl⟩
  | increment side mp t =>
      have := incrementCase_receiverOffsets s side mp t
      exact ⟨this.1.trans h.1, this.2.trans h.2⟩
  | undo =>
      simp only [matchReducer, undoCase]
      split <;> exact h
  | continueNextSet t sn rn =>
      simp only [matchReducer, continueNextSetCase]
      exact h
  | resetHistory => exact h
  | setSetFinishData d => exact h
  | clearPointHistory => exact h
  | setNextServer p => exact h
  | setNextReceiver p => exact h

/-- C10. In every state reachable from the initial state by any sequence of
dispatched actions, `receiverOffsetA` and `receiverOffsetB` are 0: they are
initialized to 0 and no reducer case ever assigns them, so the offset-driven
receiver-by-parity mechanism is never driven by these fields. -/
theorem receiverOffsets_always_zero (s : MatchState) (h : Reach s) :
    s.receiverOffsetA = 0 ∧ s.receiverOffsetB = 0 := by
  induction h with
  | init => exact ⟨rfl, rfl⟩
  | step s a _ ih => exact receiverOffsets_step s a ih

/-- Witness for C10 at the concrete initial state. -/
theorem receiverOffsets_always_zero_witness :
    initialState.receiverOffsetA = 0 ∧ initialState.receiverOffsetB = 0 :=
  receiverOffsets_always_zero initialState Reach.init

/-! ## C5: the per-set statistics count the initial 0-0 snapshot as a played point
(code bug: `totalPointsPlayed` is the raw history length, not length − 1) -/

/-- C5 (code bug exhibit). For a game whose point history is the initial 0-0
snapshot followed by one point (one point actually played, history length 2,
and indeed `totalPointsWonA + totalPointsWonB = 1`), the implementation
reports `totalPointsPlayed = 2`, the raw history length, whereas the
specified value is history length − 1 = 1. -/
theorem calculateGameStats_totalPointsPlayed_counts_initial :
    (calculateGameStats c5Game 21).totalPointsPlayed = 2 ∧
    c5Game.pointHistory.length - 1 = 1 ∧
    (calculateGameStats c5Game 21).totalPointsWonA +
      (calculateGameStats c5Game 21).totalPointsWonB = 1 ∧
    (calculateGameStats c5Game 21).totalPointsPlayed ≠ c5Game.pointHistory.length - 1 := by
  refine ⟨rfl, rfl, rfl, by decide⟩

/-! ## C2: Undo immediately after a non-finishing IncrementPoint restores the exact prior state -/

/-- C2. For any state and any `IncrementPoint` whose provisional scores do not
satisfy the set-completion predicate, dispatching `Undo` right after the
increment restores the prior state exactly, in every field (scores, sets,
serving side, server, receiver, next server, rotation index, roster
positions, and the undo stack itself). -/
theorem undo_increment_roundtrip (s : MatchState) (side : Side) (maxPoint : Nat) (time : Int)
    (h : ¬ isSetFinishedPred s.scoringSystem
      (if side = Side.A then s.pointsA + 1 else s.pointsA)
      (if side = Side.B then s.pointsB + 1 else s.pointsB) maxPoint) :
    matchReducer (matchReducer s (.increment side maxPoint time)) .undo = s := by
  simp only [matchReducer, incrementCase, if_neg h]
  simp only [incrementInProgress, undoCase, createSnapshot]
  simp only [List.getLast?_concat, List.dropLast_concat]

/-- Witness for C2 at a concrete singles state one point into a game. -/
theorem undo_increment_roundtrip_witness :
    matchReducer (matchReducer c2State (.increment Side.A 30 7)) .undo = c2State :=
  undo_increment_roundtrip c2State Side.A 30 7 (by decide)

/-! ## C1: a set finishes if and only if the completion predicate holds on the
provisional post-increment scores -/

/-- C1. For every state (scoring target `s.scoringSystem`, hard cap `maxPoint`)
and every `IncrementPoint(side, time)` event, the resulting state marks the set
as finished — transient `setFinishData` slot set, winner's set counter
incremented, `GameSnapshot` appended to the completed-set history — if and only
if the spec's completion predicate
`(sideScore ≥ target ∧ sideScore − otherScore ≥ 2) ∨ sideScore = cap`
holds for some side on the provisional post-increment scores; never before
that point and never after an extra point. -/
theorem setFinish_iff_aux (s : MatchState) (side : Side) (maxPoint : Nat) (time : Int) :
    ((matchReducer s (.increment side maxPoint time)).setFinishData ≠ none ∧
     (matchReducer s (.increment side maxPoint time)).setsA +
       (matchReducer s (.increment side maxPoint time)).setsB = s.setsA + s.setsB + 1 ∧
     (matchReducer s (.increment side maxPoint time)).matchHistory.length =
       s.matchHistory.length + 1)
      ↔ specSetFinished s.scoringSystem (provisionalA s side) (provisionalB s side) maxPoint := by
  have hequiv : specSetFinished s.scoringSystem (provisionalA s side) (provisionalB s side) maxPoint
      ↔ isSetFinishedPred s.scoringSystem
          (if side = Side.A then s.pointsA + 1 else s.pointsA)
          (if side = Side.B then s.pointsB + 1 else s.pointsB) maxPoint := by
    unfold specSetFinished isSetFinishedPred provisionalA provisionalB
    tauto
  rw [hequiv]
  by_cases hf : isSetFinishedPred s.scoringSystem
      (if side = Side.A then s.pointsA + 1 else s.pointsA)
      (if side = Side.B then s.pointsB + 1 else s.pointsB) maxPoint
  · have hr : matchReducer s (.increment side maxPoint time) =
        incrementFinish s time (createSnapshot s)
          (if side = Side.A then s.pointsA + 1 else s.pointsA)
          (if side = Side.B then s.pointsB + 1 else s.pointsB) := by
      simp only [matchReducer, incrementCase, if_pos hf]
    rw [hr]
    refine iff_of_true ⟨by simp [incrementFinish], ?_, by simp [incrementFinish]⟩ hf
    by_cases hw : (if side = Side.B then s.pointsB + 1 else s.pointsB) <
        (if side = Side.A then s.pointsA + 1 else s.pointsA) <;>
      simp [incrementFinish, hw] <;> omega
  · have hr : matchReducer s (.increment side maxPoint time) =
        incrementInProgress s side (createSnapshot s)
          (if side = Side.A then s.pointsA + 1 else s.pointsA)
          (if side = Side.B then s.pointsB + 1 else s.pointsB) := by
      simp only [matchReducer, incrementCase, if_neg hf]
    rw [hr]
    refine iff_of_false ?_ hf
    rintro ⟨_, hsum, _⟩
    revert hsum
    simp [incrementInProgress]

/-- C1 auxiliary direction, packaged with the iff above by the claim: when the
predicate fails, the increment leaves set counters, completed-set history and
the transient slot untouched (the set never finishes early), and when it
holds, exactly the winner's counter is incremented. -/
theorem setFinish_effects_aux (s : MatchState) (side : Side) (maxPoint : Nat) (time : Int) :
    (specSetFinished s.scoringSystem (provisionalA s side) (provisionalB s side) maxPoint →
      (if provisionalB s side < provisionalA s side then
        (matchReducer s (.increment side maxPoint time)).setsA = s.setsA + 1 ∧
        (matchReducer s (.increment side maxPoint time)).setsB = s.setsB
      else
        (matchReducer s (.increment side maxPoint time)).setsB = s.setsB + 1 ∧
        (matchReducer s (.increment side maxPoint time)).setsA = s.setsA)) ∧
    (¬ specSetFinished s.scoringSystem (provisionalA s side) (provisionalB s side) maxPoint →
      (matchReducer s (.increment side maxPoint time)).setsA = s.setsA ∧
      (matchReducer s (.increment side maxPoint time)).setsB = s.setsB ∧
      (matchReducer s (.increment side maxPoint time)).matchHistory = s.matchHistory ∧
      (matchReducer s (.increment side maxPoint time)).setFinishData = s.setFinishData) := by
  have hequiv : specSetFinished s.scoringSystem (provisionalA s side) (provisionalB s side) maxPoint
      ↔ isSetFinishedPred s.scoringSystem
          (if side = Side.A then s.pointsA + 1 else s.pointsA)
          (if side = Side.B then s.pointsB + 1 else s.pointsB) maxPoint := by
    unfold specSetFinished isSetFinishedPred provisionalA provisionalB
    tauto
  by_cases hf : isSetFinishedPred s.scoringSystem
      (if side = Side.A then s.pointsA + 1 else s.pointsA)
      (if side = Side.B then s.pointsB + 1 else s.pointsB) maxPoint
  · have hr : matchReducer s (.increment side maxPoint time) =
        incrementFinish s time (createSnapshot s)
          (if side = Side.A then s.pointsA + 1 else s.pointsA)
          (if side = Side.B then s.pointsB + 1 else s.pointsB) := by
      simp only [matchReducer, incrementCase, if_pos hf]
    refine ⟨fun _ => ?_, fun hnf => absurd (hequiv.mpr hf) hnf⟩
    rw [hr]
    unfold provisionalA provisionalB
    by_cases hw : (if side = Side.B then s.pointsB + 1 else s.pointsB) <
        (if side = Side.A then s.pointsA + 1 else s.pointsA) <;>
      simp [incrementFinish, hw]
  · have hr : matchReducer s (.increment side maxPoint time) =
        incrementInProgress s side (createSnapshot s)
          (if side = Side.A then s.pointsA + 1 else s.pointsA)
          (if side = Side.B then s.pointsB + 1 else s.pointsB) := by
      simp only [matchReducer, incrementCase, if_neg hf]
    exact ⟨fun hfin => absurd (hequiv.mp hfin) hf, fun _ => by rw [hr]; exact ⟨rfl, rfl, rfl, rfl⟩⟩

/-- C1. For every state (scoring target `s.scoringSystem`, hard cap `maxPoint`)
and every `IncrementPoint(side, time)` event, the resulting state marks the set
as finished — transient `setFinishData` slot set, a set counter incremented,
`GameSnapshot` appended to the completed-set history — if and only if the
spec's completion predicate
`(sideScore ≥ target ∧ sideScore − otherScore ≥ 2) ∨ sideScore = cap`
holds for some side on the provisional post-increment scores (never before
that point and never after an extra point); moreover when it holds it is
exactly the winner's set counter that is incremented, and when it fails the
set counters, the completed-set history and the transient slot are all left
untouched. -/
theorem increment_setFinish_iff_full (s : MatchState) (side : Side) (maxPoint : Nat) (time : Int) :
    (((matchReducer s (.increment side maxPoint time)).setFinishData ≠ none ∧
      (matchReducer s (.increment side maxPoint time)).setsA +
        (matchReducer s (.increment side maxPoint time)).setsB = s.setsA + s.setsB + 1 ∧
      (matchReducer s (.increment side maxPoint time)).matchHistory.length =
        s.matchHistory.length + 1)
      ↔ specSetFinished s.scoringSystem (provisionalA s side) (provisionalB s side) maxPoint) ∧
    (specSetFinished s.scoringSystem (provisionalA s side) (provisionalB s side) maxPoint →
      (if provisionalB s side < provisionalA s side then
        (matchReducer s (.increment side maxPoint time)).setsA = s.setsA + 1 ∧
        (matchReducer s (.increment side maxPoint time)).setsB = s.setsB
      else
        (matchReducer s (.increment side maxPoint time)).setsB = s.setsB + 1 ∧
        (matchReducer s (.increment side maxPoint time)).setsA = s.setsA)) ∧
    (¬ specSetFinished s.scoringSystem (provisionalA s side) (provisionalB s side) maxPoint →
      (matchReducer s (.increment side maxPoint time)).setsA = s.setsA ∧
      (matchReducer s (.increment side maxPoint time)).setsB = s.setsB ∧
      (matchReducer s (.increment side maxPoint time)).matchHistory = s.matchHistory ∧
      (matchReducer s (.increment side maxPoint time)).setFinishData = s.setFinishData) :=
  ⟨setFinish_iff_aux s side maxPoint time,
   (setFinish_effects_aux s side maxPoint time).1,
   (setFinish_effects_aux s side maxPoint time).2⟩

/-- Witness for C1 at a concrete finishing input (side B finishes 21-10 from
`c6State`): the transient slot is set, B's counter is incremented, one
GameSnapshot is appended. -/
theorem increment_setFinish_iff_full_witness :
    (matchReducer c6State (.increment Side.B 30 100)).setFinishData ≠ none ∧
    (matchReducer c6State (.increment Side.B 30 100)).setsB = c6State.setsB + 1 ∧
    (matchReducer c6State (.increment Side.B 30 100)).setsA = c6State.setsA ∧
    (matchReducer c6State (.increment Side.B 30 100)).matchHistory.length =
      c6State.matchHistory.length + 1 := by
  have h := increment_setFinish_iff_full c6State Side.B 30 100
  have hfin : specSetFinished c6State.scoringSystem (provisionalA c6State Side.B)
      (provisionalB c6State Side.B) 30 := by decide
  have h2 := h.2.1 hfin
  rw [if_neg (by decide)] at h2
  exact ⟨(h.1.mpr hfin).1, h2.1, h2.2, (h.1.mpr hfin).2.2⟩

/-! ## C6: the default next receiver after a set finish -/

/-- C6 counterexample.  In the concrete doubles state `c6State`, side B wins
the set 21-10; the claim says the default next receiver is the first entry
(index 0) of the losing side's roster, i.e. "a1" — but the code stores the
entry at index 1, "a2". -/
theorem setFinish_receiver_counterexample :
    (matchReducer c6State (.increment Side.B 30 100)).setFinishData ≠ none ∧
    c6State.players.teamA.get? 0 = some "a1" ∧
    (matchReducer c6State (.increment Side.B 30 100)).currentReceiver = some "a2" ∧
    (matchReducer c6State (.increment Side.B 30 100)).currentReceiver ≠
      c6State.players.teamA.get? 0 := by
  refine ⟨by decide, rfl, by decide, by decide⟩

/-- C6 amended.  For every set-finishing `IncrementPoint`: when side A wins
the set, the default next receiver stored in the resulting state is the entry
at index 0 of the losing side's roster; when side B wins, it is the entry at
index 1 (which is `none`/undefined in singles). -/
theorem setFinish_defaultNextReceiver (s : MatchState) (side : Side) (maxPoint : Nat) (time : Int)
    (hf : specSetFinished s.scoringSystem (provisionalA s side) (provisionalB s side) maxPoint) :
    (provisionalB s side < provisionalA s side →
      (matchReducer s (.increment side maxPoint time)).currentReceiver =
        s.players.teamB.get? 0) ∧
    (¬ provisionalB s side < provisionalA s side →
      (matchReducer s (.increment side maxPoint time)).currentReceiver =
        s.players.teamA.get? 1) := by
  have hf' : isSetFinishedPred s.scoringSystem
      (if side = Side.A then s.pointsA + 1 else s.pointsA)
      (if side = Side.B then s.pointsB + 1 else s.pointsB) maxPoint := by
    revert hf
    unfold specSetFinished isSetFinishedPred provisionalA provisionalB
    tauto
  have hr : matchReducer s (.increment side maxPoint time) =
      incrementFinish s time (createSnapshot s)
        (if side = Side.A then s.pointsA + 1 else s.pointsA)
        (if side = Side.B then s.pointsB + 1 else s.pointsB) := by
    simp only [matchReducer, incrementCase, if_pos hf']
  rw [hr]
  unfold provisionalA provisionalB
  by_cases hw : (if side = Side.B then s.pointsB + 1 else s.pointsB) <
      (if side = Side.A then s.pointsA + 1 else s.pointsA) <;>
    simp [incrementFinish, hw]

/-- Witness for C6 (amended) at the concrete state `c6State` with B winning. -/
theorem setFinish_defaultNextReceiver_witness :
    (matchReducer c6State (.increment Side.B 30 100)).currentReceiver =
      c6State.players.teamA.get? 1 :=
  (setFinish_defaultNextReceiver c6State Side.B 30 100 (by decide)).2 (by decide)

/-! ## C4: serve-change handling during a non-finishing increment -/

/-- C4. For every state with a declared serving side and a non-empty serve
order, and every non-set-finishing `IncrementPoint(side, time)`: if `side`
differs from the serving side, the new rotation index is
`(old index + 1) mod order length`, the new server is the serve-order entry at
that index, and the new serving side is determined by which team's position
list contains that server; if `side` equals the serving side, rotation index,
server and serving side are unchanged. -/
theorem increment_serve_rotation (s : MatchState) (side : Side) (maxPoint : Nat) (time : Int)
    (ss : Side) (hss : s.serverSide = some ss) (hord : s.serveOrder ≠ [])
    (hnf : ¬ specSetFinished s.scoringSystem (provisionalA s side) (provisionalB s side) maxPoint) :
    (side ≠ ss →
      (matchReducer s (.increment side maxPoint time)).serveIndex =
        (s.serveIndex + 1) % s.serveOrder.length ∧
      (matchReducer s (.increment side maxPoint time)).currentServer =
        s.serveOrder.get? ((s.serveIndex + 1) % s.serveOrder.length) ∧
      (∀ p, (matchReducer s (.increment side maxPoint time)).currentServer = some p →
        (p ∈ s.players.teamA →
          (matchReducer s (.increment side maxPoint time)).serverSide = some Side.A) ∧
        (p ∉ s.players.teamA →
          (matchReducer s (.increment side maxPoint time)).serverSide = some Side.B))) ∧
    (side = ss →
      (matchReducer s (.increment side maxPoint time)).serveIndex = s.serveIndex ∧
      (matchReducer s (.increment side maxPoint time)).currentServer = s.currentServer ∧
      (matchReducer s (.increment side maxPoint time)).serverSide = s.serverSide) := by
  have hnf' : ¬ isSetFinishedPred s.scoringSystem
      (if side = Side.A then s.pointsA + 1 else s.pointsA)
      (if side = Side.B then s.pointsB + 1 else s.pointsB) maxPoint := by
    intro hc
    apply hnf
    revert hc
    unfold specSetFinished isSetFinishedPred provisionalA provisionalB
    tauto
  have hr : matchReducer s (.increment side maxPoint time) =
      incrementInProgress s side (createSnapshot s)
        (if side = Side.A then s.pointsA + 1 else s.pointsA)
        (if side = Side.B then s.pointsB + 1 else s.pointsB) := by
    simp only [matchReducer, incrementCase, if_neg hnf']
  rw [hr]
  have hlen : 0 < s.serveOrder.length := List.length_pos.mpr hord
  constructor
  · intro hne
    have hchange : s.serverSide ≠ some side := by
      rw [hss]
      exact fun h => hne (Option.some_injective _ h).symm
    have hcond : s.serverSide ≠ some side ∧ 0 < s.serveOrder.length := ⟨hchange, hlen⟩
    refine ⟨?_, ?_, ?_⟩
    · simp [incrementInProgress, if_pos hcond]
    · simp only [incrementInProgress, if_pos hcond]
      exact (get?_eq_getD_of_lt "" (Nat.mod_lt _ hlen)).symm
    · intro p hp
      simp only [incrementInProgress, if_pos hcond] at hp ⊢
      have hpp : p = s.serveOrder.getD ((s.serveIndex + 1) % s.serveOrder.length) "" :=
        (Option.some_injective _ hp).symm
      subst hpp
      constructor
      · intro hmem
        simp
        simpa using hmem
      · intro hmem
        simp
        simpa using hmem
  · intro heq
    have hcond : ¬ (s.serverSide ≠ some side ∧ 0 < s.serveOrder.length) := by
      rintro ⟨h1, _⟩
      exact h1 (by rw [hss, heq])
    refine ⟨?_, ?_, ?_⟩
    · simp [incrementInProgress, if_neg hcond]
    · simp [incrementInProgress, if_neg hcond]
    · simp [incrementInProgress, if_neg hcond, hss, heq]

/-- Witness for C4: from the concrete doubles state `c4State` (A serving at
2-3), side B scores; the rotation index advances from 0 to 1, the new server
is serve-order entry 1 ("b1"), and the serving side becomes B. -/
theorem increment_serve_rotation_witness :
    (matchReducer c4State (.increment Side.B 30 50)).serveIndex =
      (c4State.serveIndex + 1) % c4State.serveOrder.length ∧
    (matchReducer c4State (.increment Side.B 30 50)).currentServer =
      c4State.serveOrder.get? ((c4State.serveIndex + 1) % c4State.serveOrder.length) ∧
    (matchReducer c4State (.increment Side.B 30 50)).serverSide = some Side.B := by
  have h := (increment_serve_rotation c4State Side.B 30 50 Side.A rfl (by decide)
      (by decide)).1 (by decide)
  refine ⟨h.1, h.2.1, ?_⟩
  have hcs : (matchReducer c4State (.increment Side.B 30 50)).currentServer = some "b1" := by
    rw [h.2.1]; rfl
  exact ((h.2.2 "b1" hcs).2 (by decide))

/-! ## C3: during play, only the serving side's slots are recomputed -/

/-- C3. For every doubles position-resolver call at a nonzero score (not 0-0)
whose server name is on the serving side's pair: the non-serving side's slot
pair is returned exactly as the input positions array (not re-derived from
roster declaration order), while the serving side's pair is a reordering of
its own input pair determined by the serving side's own score parity — the
server occupies the right slot on an even score and the left slot on an odd
score (team A's pair is `[left, right]`, team B's pair `[right, left]`). -/
theorem getTeamPositions_nonzero_serving_only
    (servingSide : Side) (team : Players) (serverName receiverName : String) (pA pB : Nat)
    (hA : team.teamA.length = 2) (hB : team.teamB.length = 2)
    (hnz : ¬ (pA = 0 ∧ pB = 0))
    (hsrv : serverName ∈ (if servingSide = Side.A then team.teamA else team.teamB)) :
    (getTeamPositions servingSide team serverName receiverName pA pB).teamA.Perm team.teamA ∧
    (getTeamPositions servingSide team serverName receiverName pA pB).teamB.Perm team.teamB ∧
    (servingSide = Side.A →
      (getTeamPositions servingSide team serverName receiverName pA pB).teamB = team.teamB ∧
      (getTeamPositions servingSide team serverName receiverName pA pB).teamA.getD
        (if pA % 2 = 0 then 1 else 0) "" = serverName) ∧
    (servingSide = Side.B →
      (getTeamPositions servingSide team serverName receiverName pA pB).teamA = team.teamA ∧
      (getTeamPositions servingSide team serverName receiverName pA pB).teamB.getD
        (if pB % 2 = 0 then 0 else 1) "" = serverName) := by
  obtain ⟨x, y, hxy⟩ := List.length_eq_two.mp hA
  obtain ⟨u, v, huv⟩ := List.length_eq_two.mp hB
  obtain ⟨ta, tb⟩ := team
  simp only at hxy huv
  subst hxy huv
  cases servingSide with
  | A =>
      simp only [if_pos rfl] at hsrv
      by_cases hx : x = serverName
      · by_cases hpar : pA % 2 = 0 <;>
          simp [getTeamPositions, safeIdx, indexOfStr, hnz, hsrv, hx, hpar,
            List.Perm.swap]
      · have hy : y = serverName := by
          have hsrv2 : serverName = x ∨ serverName = y := by simpa using hsrv
          rcases hsrv2 with h | h
          · exact absurd h.symm hx
          · exact h.symm
        by_cases hpar : pA % 2 = 0 <;>
          simp [getTeamPositions, safeIdx, indexOfStr, hnz, hsrv, hx, hy, hpar,
            List.Perm.swap]
  | B =>
      simp only [if_neg (by decide : ¬ Side.B = Side.A)] at hsrv
      by_cases hu : u = serverName
      · by_cases hpar : pB % 2 = 0 <;>
          simp [getTeamPositions, safeIdx, indexOfStr, hnz, hsrv, hu, hpar,
            List.Perm.swap]
      · have hv : v = serverName := by
          have hsrv2 : serverName = u ∨ serverName = v := by simpa using hsrv
          rcases hsrv2 with h | h
          · exact absurd h.symm hu
          · exact h.symm
        by_cases hpar : pB % 2 = 0 <;>
          simp [getTeamPositions, safeIdx, indexOfStr, hnz, hsrv, hu, hv, hpar,
            List.Perm.swap]

/-- Witness for C3 at a concrete doubles call: team B serving at 5-3 with
server "b2"; team A's pair is returned untouched and "b2" takes B's left slot
(index 1) because B's score 3 is odd. -/
theorem getTeamPositions_nonzero_serving_only_witness :
    (getTeamPositions Side.B { teamA := ["a1", "a2"], teamB := ["b1", "b2"] }
      "b2" "a1" 5 3).teamA = ["a1", "a2"] ∧
    (getTeamPositions Side.B { teamA := ["a1", "a2"], teamB := ["b1", "b2"] }
      "b2" "a1" 5 3).teamB.getD 1 "" = "b2" := by
  have h := getTeamPositions_nonzero_serving_only Side.B
    { teamA := ["a1", "a2"], teamB := ["b1", "b2"] } "b2" "a1" 5 3
    rfl rfl (by decide) (by decide)
  have h2 := h.2.2.2 rfl
  exact ⟨h2.1, by simpa using h2.2⟩

/-! ## C7: the serve order built by StartMatch and the initial serve index -/

/-- C7. For every `StartMatch(roster, firstServingSide, firstServerName,
firstReceiverName, target)` dispatched from any state: for a valid doubles
roster the built serve order is exactly
`[Server, PartnerOfReceiver, PartnerOfServer, Receiver]` — length 4,
containing each of the four roster players exactly once; for singles it is
`[Server, Receiver]`; and in all cases the initial serve index is the
position of `firstServerName` within that order, falling back to 0 when
`firstServerName` does not occur in it. -/
theorem startMatch_serveOrder_spec (s : MatchState) (newPlayers : Players) (firstServe : Side)
    (firstServerName opponentReceiverName : String) (sys : Option Nat) (t : Int) :
    (newPlayers.teamA.length = 2 → newPlayers.teamB.length = 2 →
      (newPlayers.teamA ++ newPlayers.teamB).Nodup →
      firstServerName ∈ (if firstServe = Side.A then newPlayers.teamA else newPlayers.teamB) →
      opponentReceiverName ∈
        (if firstServe = Side.A then newPlayers.teamB else newPlayers.teamA) →
      (matchReducer s (.startMatch newPlayers firstServe firstServerName
          opponentReceiverName sys t)).serveOrder =
        [firstServerName,
         partnerIn (if firstServe = Side.A then newPlayers.teamB else newPlayers.teamA)
           opponentReceiverName,
         partnerIn (if firstServe = Side.A then newPlayers.teamA else newPlayers.teamB)
           firstServerName,
         opponentReceiverName] ∧
      (matchReducer s (.startMatch newPlayers firstServe firstServerName
          opponentReceiverName sys t)).serveOrder.length = 4 ∧
      (matchReducer s (.startMatch newPlayers firstServe firstServerName
          opponentReceiverName sys t)).serveOrder.Nodup ∧
      (∀ p, p ∈ (matchReducer s (.startMatch newPlayers firstServe firstServerName
          opponentReceiverName sys t)).serveOrder ↔
            p ∈ newPlayers.teamA ++ newPlayers.teamB)) ∧
    (newPlayers.teamA.length = 1 →
      (matchReducer s (.startMatch newPlayers firstServe firstServerName
          opponentReceiverName sys t)).serveOrder =
        [(matchReducer s (.startMatch newPlayers firstServe firstServerName
            opponentReceiverName sys t)).currentServer.getD "",
         (matchReducer s (.startMatch newPlayers firstServe firstServerName
            opponentReceiverName sys t)).currentReceiver.getD ""]) ∧
    (firstServerName ∈ (matchReducer s (.startMatch newPlayers firstServe firstServerName
        opponentReceiverName sys t)).serveOrder →
      (matchReducer s (.startMatch newPlayers firstServe firstServerName
          opponentReceiverName sys t)).serveIndex =
        indexOfStr (matchReducer s (.startMatch newPlayers firstServe firstServerName
          opponentReceiverName sys t)).serveOrder firstServerName) ∧
    (firstServerName ∉ (matchReducer s (.startMatch newPlayers firstServe firstServerName
        opponentReceiverName sys t)).serveOrder →
      (matchReducer s (.startMatch newPlayers firstServe firstServerName
          opponentReceiverName sys t)).serveIndex = 0) := by
  have hidx : (matchReducer s (.startMatch newPlayers firstServe firstServerName
      opponentReceiverName sys t)).serveIndex =
      if firstServerName ∈ (matchReducer s (.startMatch newPlayers firstServe firstServerName
          opponentReceiverName sys t)).serveOrder then
        indexOfStr (matchReducer s (.startMatch newPlayers firstServe firstServerName
          opponentReceiverName sys t)).serveOrder firstServerName
      else 0 := rfl
  refine ⟨?_, ?_, ?_, ?_⟩
  · intro hA hB hnd hsrv hrcv
    obtain ⟨x, y, hxy⟩ := List.length_eq_two.mp hA
    obtain ⟨u, v, huv⟩ := List.length_eq_two.mp hB
    obtain ⟨ta, tb⟩ := newPlayers
    simp only at hxy huv
    subst hxy huv
    have hlen : ¬ ([x, y] : List String).length = 1 := by simp
    simp only [List.nodup_cons, List.mem_cons, List.mem_append, List.nodup_append,
      List.mem_singleton, List.nodup_nil] at hnd
    cases firstServe with
    | A =>
        simp only [if_pos rfl] at hsrv hrcv ⊢
        have hsrv2 : firstServerName = x ∨ firstServerName = y := by simpa using hsrv
        have hrcv2 : opponentReceiverName = u ∨ opponentReceiverName = v := by simpa using hrcv
        rcases hsrv2 with hs | hs <;> rcases hrcv2 with hr | hr <;> subst hs hr <;>
          constructor <;>
          simp_all [matchReducer, startMatchCase, safeIdx, indexOfStr, partnerIn] <;>
          tauto
    | B =>
        simp only [if_neg (by decide : ¬ Side.B = Side.A)] at hsrv hrcv ⊢
        have hsrv2 : firstServerName = u ∨ firstServerName = v := by simpa using hsrv
        have hrcv2 : opponentReceiverName = x ∨ opponentReceiverName = y := by simpa using hrcv
        rcases hsrv2 with hs | hs <;> rcases hrcv2 with hr | hr <;> subst hs hr <;>
          constructor <;>
          simp_all [matchReducer, startMatchCase, safeIdx, indexOfStr, partnerIn] <;>
          tauto
  · intro hA
    obtain ⟨a, ha⟩ := List.length_eq_one.mp hA
    obtain ⟨ta, tb⟩ := newPlayers
    simp only at ha
    subst ha
    cases firstServe <;> simp [matchReducer, startMatchCase, List.getD]
  · intro hmem
    rw [hidx, if_pos hmem]
  · intro hmem
    rw [hidx, if_neg hmem]

/-- Witness for C7 at a concrete doubles StartMatch: B serves first with
server "b2" and receiver "a1"; the serve order is [b2, a2, b1, a1] and the
serve index is the position of "b2" in it, namely 0. -/
theorem startMatch_serveOrder_spec_witness :
    (matchReducer initialState (.startMatch { teamA := ["a1", "a2"], teamB := ["b1", "b2"] }
        Side.B "b2" "a1" (some 21) 0)).serveOrder = ["b2", "a2", "b1", "a1"] ∧
    (matchReducer initialState (.startMatch { teamA := ["a1", "a2"], teamB := ["b1", "b2"] }
        Side.B "b2" "a1" (some 21) 0)).serveIndex = 0 := by
  have h := startMatch_serveOrder_spec initialState
    { teamA := ["a1", "a2"], teamB := ["b1", "b2"] } Side.B "b2" "a1" (some 21) 0
  have h1 := h.1 rfl rfl (by decide) (by decide) (by decide)
  refine ⟨?_, ?_⟩
  · rw [h1.1]; rfl
  · have hm : "b2" ∈ (matchReducer initialState
        (.startMatch { teamA := ["a1", "a2"], teamB := ["b1", "b2"] }
          Side.B "b2" "a1" (some 21) 0)).serveOrder := by
      rw [h1.1]; decide
    rw [h.2.2.1 hm, h1.1]
    rfl

/-! ## C8: the receiver is never the server, on protocol-respecting traces -/

theorem safeIdx_pair (x y sn : String) : safeIdx [x, y] sn = 0 ∨ safeIdx [x, y] sn = 1 := by
  by_cases h1 : x = sn
  · left
    simp [safeIdx, indexOfStr, h1]
  · by_cases h2 : y = sn
    · right
      simp [safeIdx, indexOfStr, h1, h2]
    · left
      have h1' : ¬ sn = x := fun h => h1 h.symm
      have h2' : ¬ sn = y := fun h => h2 h.symm
      simp [safeIdx, indexOfStr, h1', h2']

/-- getTeamPositions returns, on each side, a reordering of that side's
input pair (doubles inputs). -/
theorem getTeamPositions_perm (ss : Side) (team : Players) (sn rn : String) (pA pB : Nat)
    (hA : team.teamA.length = 2) (hB : team.teamB.length = 2) :
    (getTeamPositions ss team sn rn pA pB).teamA.Perm team.teamA ∧
    (getTeamPositions ss team sn rn pA pB).teamB.Perm team.teamB := by
  obtain ⟨x, y, hxy⟩ := List.length_eq_two.mp hA
  obtain ⟨u, v, huv⟩ := List.length_eq_two.mp hB
  obtain ⟨ta, tb⟩ := team
  simp only at hxy huv
  subst hxy huv
  have swapA : ([y, x] : List String).Perm [x, y] := List.Perm.swap x y []
  have swapB : ([v, u] : List String).Perm [u, v] := List.Perm.swap u v []
  cases ss with
  | A =>
      rcases safeIdx_pair x y sn with hs | hs <;>
      rcases safeIdx_pair u v rn with hr | hr <;>
      by_cases h00 : pA = 0 ∧ pB = 0 <;>
      by_cases hpar : pA % 2 = 0 <;>
        constructor <;>
        simp [getTeamPositions, hs, hr, h00, hpar, swapA, swapB]
  | B =>
      rcases safeIdx_pair u v sn with hs | hs <;>
      rcases safeIdx_pair x y rn with hr | hr <;>
      by_cases h00 : pA = 0 ∧ pB = 0 <;>
      by_cases hpar : pB % 2 = 0 <;>
        constructor <;>
        simp [getTeamPositions, hs, hr, h00, hpar, swapA, swapB]

theorem validRosters_disjoint (A0 B0 : List String) (hval : ValidRosters A0 B0) :
    ∀ x, x ∈ A0 → x ∉ B0 := by
  intro x hx hxB
  exact (List.nodup_append.mp hval.2).2.2 hx hxB

theorem rosterOf_other_disjoint (A0 B0 : List String) (hval : ValidRosters A0 B0)
    (d : Side) (p q : String) (hp : p ∈ rosterOf A0 B0 d)
    (hq : q ∈ rosterOf A0 B0 (otherSide d)) : q ≠ p := by
  intro h
  subst h
  cases d with
  | A => exact validRosters_disjoint A0 B0 hval q hp hq
  | B => exact validRosters_disjoint A0 B0 hval q hq hp

theorem stateInv_ne (A0 B0 : List String) (s : MatchState) (hval : ValidRosters A0 B0)
    (hinv : StateInv A0 B0 s) : s.currentReceiver ≠ s.currentServer := by
  by_cases hp : s.setFinishData = none
  · obtain ⟨d, p, q, _, hsrv, hpmem, hrcv, hqmem⟩ := hinv.2.2.2.1 hp
    rw [hsrv, hrcv]
    intro h
    exact rosterOf_other_disjoint A0 B0 hval d p q hpmem hqmem
      (Option.some_injective _ h)
  · obtain ⟨⟨d, p, hsrv, hpmem, hrcv⟩, _⟩ := hinv.2.2.2.2.1 hp
    rcases hrcv with hnone | ⟨q, hq, hqmem⟩
    · rw [hnone, hsrv]
      simp
    · rw [hq, hsrv]
      intro h
      exact rosterOf_other_disjoint A0 B0 hval d p q hpmem hqmem
        (Option.some_injective _ h)

theorem stateInv_undo (A0 B0 : List String) (s : MatchState)
    (hinv : StateInv A0 B0 s) : StateInv A0 B0 (matchReducer s .undo) := by
  simp only [matchReducer, undoCase]
  cases hl : s.currentSetPointHistory.getLast? with
  | none => exact hinv
  | some snap =>
      have hsnapinv := hinv.2.2.2.2.2 snap (mem_of_getLast_some hl)
      have hne : s.currentSetPointHistory ≠ [] := by
        intro h
        rw [h] at hl
        simp at hl
      have hlive : s.setFinishData = none := by
        by_contra hsome
        exact hne (hinv.2.2.2.2.1 hsome).2
      refine ⟨hsnapinv.1, hsnapinv.2.1, hinv.2.2.1, fun _ => hsnapinv.2.2, ?_, ?_⟩
      · intro hcontra
        exact absurd hlive hcontra
      · intro sn hsn
        exact hinv.2.2.2.2.2 sn (List.dropLast_subset _ hsn)

theorem stateInv_reset (A0 B0 : List String) (s : MatchState)
    (hinv : StateInv A0 B0 s) : StateInv A0 B0 (matchReducer s .resetHistory) :=
  hinv

theorem get?_mem_of_lt {l : List String} {n : Nat} (hn : n < l.length) :
    ∃ z, l.get? n = some z ∧ z ∈ l :=
  ⟨l.getD n "", get?_eq_getD_of_lt "" hn, getD_mem_of_lt "" hn⟩

theorem forceOntoWinner_mem (winnerTeam : List String) (c : String)
    (hne : winnerTeam ≠ []) : forceOntoWinner winnerTeam c ∈ winnerTeam := by
  unfold forceOntoWinner
  by_cases hc : c ∈ winnerTeam
  · rwa [if_pos hc]
  · rw [if_neg hc]
    exact getD_mem_of_lt "" (List.length_pos.mpr hne)

/-- The set-finish branch of INCREMENT preserves the state invariant (it
establishes the pending configuration). -/
theorem incrementFinish_inv (A0 B0 : List String) (hval : ValidRosters A0 B0)
    (state : MatchState) (time : Int) (snap : PointSnapshot) (pA pB : Nat)
    (hpA : state.players.teamA.Perm A0) (hpB : state.players.teamB.Perm B0)
    (hord : ∀ x ∈ state.serveOrder, x ∈ A0 ∨ x ∈ B0) :
    StateInv A0 B0 (incrementFinish state time snap pA pB) := by
  have hlenA : state.players.teamA.length = A0.length := hpA.length_eq
  have hlenB : state.players.teamB.length = B0.length := hpB.length_eq
  have hApos : 0 < A0.length := by rcases hval.1 with ⟨h, _⟩ | ⟨h, _⟩ <;> omega
  have hBpos : 0 < B0.length := by rcases hval.1 with ⟨_, h⟩ | ⟨_, h⟩ <;> omega
  have h2 : ¬ state.players.teamA.length = 1 → A0.length = 2 ∧ B0.length = 2 := by
    intro hsing
    rcases hval.1 with ⟨h, _⟩ | h
    · omega
    · exact h
  have hplayers : ∀ (w : Side) (sn rn : String),
      (if state.players.teamA.length = 1 then state.players
       else getTeamPositions w state.players sn rn pA pB).teamA.Perm A0 ∧
      (if state.players.teamA.length = 1 then state.players
       else getTeamPositions w state.players sn rn pA pB).teamB.Perm B0 := by
    intro w sn rn
    by_cases hsing : state.players.teamA.length = 1
    · rw [if_pos hsing]
      exact ⟨hpA, hpB⟩
    · rw [if_neg hsing]
      have hgtp := getTeamPositions_perm w state.players sn rn pA pB
        (by omega) (by have := h2 hsing; omega)
      exact ⟨hgtp.1.trans hpA, hgtp.2.trans hpB⟩
  have hwinmem : ∀ (wt : List String) (c : String), wt ≠ [] →
      forceOntoWinner wt c ∈ wt := forceOntoWinner_mem
  have hAne : state.players.teamA ≠ [] := by
    intro h
    rw [h] at hlenA
    simp at hlenA
    omega
  have hBne : state.players.teamB ≠ [] := by
    intro h
    rw [h] at hlenB
    simp at hlenB
    omega
  unfold StateInv incrementFinish
  by_cases hw : pB < pA
  · simp only [if_pos hw, if_pos rfl, reduceIte]
    refine ⟨(hplayers _ _ _).1, (hplayers _ _ _).2, hord, ?_, ?_, by simp⟩
    · intro h
      simp at h
    · intro _
      constructor
      · refine ⟨Side.A, _, rfl, ?_, ?_⟩
        · exact hpA.mem_iff.mp (hwinmem state.players.teamA _ hAne)
        · obtain ⟨z, hz, hzmem⟩ := get?_mem_of_lt (l := state.players.teamB)
            (n := 0) (by omega)
          exact Or.inr ⟨z, hz, hpB.mem_iff.mp hzmem⟩
      · trivial
  · simp only [if_neg hw, reduceIte]
    refine ⟨(hplayers _ _ _).1, (hplayers _ _ _).2, hord, ?_, ?_, by simp⟩
    · intro h
      simp at h
    · intro _
      constructor
      · refine ⟨Side.B, _, rfl, ?_, ?_⟩
        · exact hpB.mem_iff.mp (hwinmem state.players.teamB _ hBne)
        · by_cases hA2 : A0.length = 2
          · obtain ⟨z, hz, hzmem⟩ := get?_mem_of_lt (l := state.players.teamA)
              (n := 1) (by omega)
            exact Or.inr ⟨z, hz, hpA.mem_iff.mp hzmem⟩
          · have hA1 : A0.length = 1 := by
              rcases hval.1 with ⟨h, _⟩ | ⟨h, _⟩
              · exact h
              · omega
            left
            show state.players.teamA.get? 1 = none
            exact List.get?_eq_none.mpr (by omega)
      · trivial

theorem get?_roster {l l0 : List String} (hperm : l.Perm l0) (n : Nat) (hn : n < l0.length) :
    ∃ z, l.get? n = some z ∧ z ∈ l0 := by
  obtain ⟨z, hz, hmem⟩ := get?_mem_of_lt (l := l) (n := n)
    (by have := hperm.length_eq; omega)
  exact ⟨z, hz, hperm.mem_iff.mp hmem⟩

/-- The point-in-progress branch of INCREMENT preserves the state invariant. -/
theorem incrementInProgress_inv (A0 B0 : List String) (hval : ValidRosters A0 B0)
    (state : MatchState) (side : Side) (snap : PointSnapshot) (pA pB : Nat)
    (hpA : state.players.teamA.Perm A0) (hpB : state.players.teamB.Perm B0)
    (hord : ∀ x ∈ state.serveOrder, x ∈ A0 ∨ x ∈ B0)
    (hlok : LiveOK A0 B0 state.serverSide state.currentServer state.currentReceiver)
    (hsnaps : ∀ sn ∈ state.currentSetPointHistory, SnapInv A0 B0 sn)
    (hsnap : SnapInv A0 B0 snap)
    (hnofin : state.setFinishData = none) :
    StateInv A0 B0 (incrementInProgress state side snap pA pB) := by
  obtain ⟨d, p, q, hsd, hsrvp, hpmem, hrcvq, hqmem⟩ := hlok
  have hlenA := hpA.length_eq
  have hlenB := hpB.length_eq
  have h2 : ¬ state.players.teamA.length = 1 → A0.length = 2 ∧ B0.length = 2 := by
    intro hsing
    rcases hval.1 with ⟨h, _⟩ | h
    · omega
    · exact h
  have hApos : 0 < A0.length := by rcases hval.1 with ⟨h, _⟩ | ⟨h, _⟩ <;> omega
  have hBpos : 0 < B0.length := by rcases hval.1 with ⟨_, h⟩ | ⟨_, h⟩ <;> omega
  have hplayers : ∀ (w : Side) (sn rn : String),
      (if state.players.teamA.length = 1 then state.players
       else getTeamPositions w state.players sn rn pA pB).teamA.Perm A0 ∧
      (if state.players.teamA.length = 1 then state.players
       else getTeamPositions w state.players sn rn pA pB).teamB.Perm B0 := by
    intro w sn rn
    by_cases hsing : state.players.teamA.length = 1
    · rw [if_pos hsing]
      exact ⟨hpA, hpB⟩
    · rw [if_neg hsing]
      have hgtp := getTeamPositions_perm w state.players sn rn pA pB
        (by omega) (by have := h2 hsing; omega)
      exact ⟨hgtp.1.trans hpA, hgtp.2.trans hpB⟩
  unfold StateInv incrementInProgress
  refine ⟨(hplayers _ _ _).1, (hplayers _ _ _).2, hord, ?_, fun h => absurd hnofin h, ?_⟩
  swap
  · intro sn hsn
    rcases List.mem_append.mp hsn with h | h
    · exact hsnaps sn h
    · rw [List.mem_singleton.mp h]
      exact hsnap
  intro _
  by_cases hch : state.serverSide ≠ some side ∧ 0 < state.serveOrder.length
  · simp only [if_pos hch]
    have hni : (state.serveIndex + 1) % state.serveOrder.length < state.serveOrder.length :=
      Nat.mod_lt _ hch.2
    have hwmem : state.serveOrder.getD ((state.serveIndex + 1) % state.serveOrder.length) ""
        ∈ state.serveOrder := getD_mem_of_lt "" hni
    have hwAB := hord _ hwmem
    by_cases hwA : state.serveOrder.getD ((state.serveIndex + 1) % state.serveOrder.length) ""
        ∈ state.players.teamA
    · simp only [if_pos hwA, eq_self_iff_true, if_true, true_and, reduceCtorEq,
        false_and, if_false]
      have hwA0 : state.serveOrder.getD ((state.serveIndex + 1) % state.serveOrder.length) ""
          ∈ A0 := hpA.mem_iff.mp hwA
      by_cases hsing : state.players.teamA.length = 1
      · rw [if_pos hsing, if_pos hsing]
        obtain ⟨z, hz, hzmem⟩ := get?_roster hpB 0 hBpos
        exact ⟨Side.A, _, z, rfl, rfl, hwA0, hz, hzmem⟩
      · have hAB2 := h2 hsing
        have hgtp := getTeamPositions_perm side state.players
          ((some (state.serveOrder.getD ((state.serveIndex + 1) % state.serveOrder.length)
            "")).getD "") (state.currentReceiver.getD "") pA pB
          (by omega) (by omega)
        rw [if_neg hsing, if_neg hsing]
        by_cases hEA : pA % 2 = 0
        · rw [if_pos hEA]
          obtain ⟨z, hz, hzmem⟩ := get?_roster (hgtp.2.trans hpB) 0 hBpos
          exact ⟨Side.A, _, z, rfl, rfl, hwA0, hz, hzmem⟩
        · rw [if_neg hEA, if_pos hEA]
          obtain ⟨z, hz, hzmem⟩ := get?_roster (hgtp.2.trans hpB) 1 (by omega)
          exact ⟨Side.A, _, z, rfl, rfl, hwA0, hz, hzmem⟩
    · simp only [if_neg hwA, eq_self_iff_true, if_true, true_and, reduceCtorEq,
        false_and, if_false]
      have hwB0 : state.serveOrder.getD ((state.serveIndex + 1) % state.serveOrder.length) ""
          ∈ B0 := by
        rcases hwAB with h | h
        · exact absurd (hpA.mem_iff.mpr h) hwA
        · exact h
      by_cases hsing : state.players.teamA.length = 1
      · rw [if_pos hsing, if_pos hsing]
        obtain ⟨z, hz, hzmem⟩ := get?_roster hpA 0 hApos
        exact ⟨Side.B, _, z, rfl, rfl, hwB0, hz, hzmem⟩
      · have hAB2 := h2 hsing
        have hgtp := getTeamPositions_perm side state.players
          ((some (state.serveOrder.getD ((state.serveIndex + 1) % state.serveOrder.length)
            "")).getD "") (state.currentReceiver.getD "") pA pB
          (by omega) (by omega)
        rw [if_neg hsing, if_neg hsing]
        by_cases hEB : pB % 2 = 0
        · rw [if_pos hEB]
          obtain ⟨z, hz, hzmem⟩ := get?_roster (hgtp.1.trans hpA) 1 (by omega)
          exact ⟨Side.B, _, z, rfl, rfl, hwB0, hz, hzmem⟩
        · rw [if_neg hEB]
          obtain ⟨z, hz, hzmem⟩ := get?_roster (hgtp.1.trans hpA) 0 hApos
          exact ⟨Side.B, _, z, rfl, rfl, hwB0, hz, hzmem⟩
  · simp only [if_neg hch]
    rw [hsd]
    simp only [Option.getD_some]
    cases d with
    | A =>
        simp only [eq_self_iff_true, if_true, true_and, reduceCtorEq, false_and, if_false]
        by_cases hsing : state.players.teamA.length = 1
        · rw [if_pos hsing, if_pos hsing]
          obtain ⟨z, hz, hzmem⟩ := get?_roster hpB 0 hBpos
          exact ⟨Side.A, p, z, rfl, hsrvp, hpmem, hz, hzmem⟩
        · have hAB2 := h2 hsing
          have hgtp := getTeamPositions_perm side state.players
            (state.currentServer.getD "") (state.currentReceiver.getD "") pA pB
            (by omega) (by omega)
          rw [if_neg hsing, if_neg hsing]
          by_cases hEA : pA % 2 = 0
          · rw [if_pos hEA]
            obtain ⟨z, hz, hzmem⟩ := get?_roster (hgtp.2.trans hpB) 0 hBpos
            exact ⟨Side.A, p, z, rfl, hsrvp, hpmem, hz, hzmem⟩
          · rw [if_neg hEA, if_pos hEA]
            obtain ⟨z, hz, hzmem⟩ := get?_roster (hgtp.2.trans hpB) 1 (by omega)
            exact ⟨Side.A, p, z, rfl, hsrvp, hpmem, hz, hzmem⟩
    | B =>
        simp only [eq_self_iff_true, if_true, true_and, reduceCtorEq, false_and, if_false]
        by_cases hsing : state.players.teamA.length = 1
        · rw [if_pos hsing, if_pos hsing]
          obtain ⟨z, hz, hzmem⟩ := get?_roster hpA 0 hApos
          exact ⟨Side.B, p, z, rfl, hsrvp, hpmem, hz, hzmem⟩
        · have hAB2 := h2 hsing
          have hgtp := getTeamPositions_perm side state.players
            (state.currentServer.getD "") (state.currentReceiver.getD "") pA pB
            (by omega) (by omega)
          rw [if_neg hsing, if_neg hsing]
          by_cases hEB : pB % 2 = 0
          · rw [if_pos hEB]
            obtain ⟨z, hz, hzmem⟩ := get?_roster (hgtp.1.trans hpA) 1 (by omega)
            exact ⟨Side.B, p, z, rfl, hsrvp, hpmem, hz, hzmem⟩
          · rw [if_neg hEB]
            obtain ⟨z, hz, hzmem⟩ := get?_roster (hgtp.1.trans hpA) 0 hApos
            exact ⟨Side.B, p, z, rfl, hsrvp, hpmem, hz, hzmem⟩

/-- A valid StartMatch establishes the state invariant. -/
theorem stateInv_start (A0 B0 : List String) (hval : ValidRosters A0 B0)
    (firstServe : Side) (srv rcv : String) (sys : Option Nat) (t : Int)
    (hsrv : srv ∈ rosterOf A0 B0 firstServe)
    (hrcv : rcv ∈ rosterOf A0 B0 (otherSide firstServe)) :
    StateInv A0 B0 (matchReducer initialState
      (.startMatch { teamA := A0, teamB := B0 } firstServe srv rcv sys t)) := by
  rcases hval.1 with ⟨hA1, hB1⟩ | ⟨hA2, hB2⟩
  · obtain ⟨a, ha⟩ := List.length_eq_one.mp hA1
    obtain ⟨b, hb⟩ := List.length_eq_one.mp hB1
    subst ha hb
    cases firstServe with
    | A =>
        have hsrv' : srv = a := by simpa [rosterOf] using hsrv
        have hrcv' : rcv = b := by simpa [rosterOf, otherSide] using hrcv
        subst hsrv' hrcv'
        refine ⟨by simp [matchReducer, startMatchCase], by simp [matchReducer, startMatchCase],
          ?_, ?_, ?_, ?_⟩
        · intro z hz
          simp [matchReducer, startMatchCase] at hz
          rcases hz with h | h <;> simp [h, rosterOf]
        · intro _
          refine ⟨Side.A, srv, rcv, rfl, by simp [matchReducer, startMatchCase], ?_,
            by simp [matchReducer, startMatchCase], ?_⟩ <;> simp [rosterOf, otherSide]
        · intro h
          exact absurd rfl h
        · intro sn hsn
          simp [matchReducer, startMatchCase, initialState] at hsn
    | B =>
        have hsrv' : srv = b := by simpa [rosterOf] using hsrv
        have hrcv' : rcv = a := by simpa [rosterOf, otherSide] using hrcv
        subst hsrv' hrcv'
        refine ⟨by simp [matchReducer, startMatchCase], by simp [matchReducer, startMatchCase],
          ?_, ?_, ?_, ?_⟩
        · intro z hz
          simp [matchReducer, startMatchCase] at hz
          rcases hz with h | h <;> simp [h, rosterOf]
        · intro _
          refine ⟨Side.B, srv, rcv, rfl, by simp [matchReducer, startMatchCase], ?_,
            by simp [matchReducer, startMatchCase], ?_⟩ <;> simp [rosterOf, otherSide]
        · intro h
          exact absurd rfl h
        · intro sn hsn
          simp [matchReducer, startMatchCase, initialState] at hsn
  · obtain ⟨x, y, hxy⟩ := List.length_eq_two.mp hA2
    obtain ⟨u, v, huv⟩ := List.length_eq_two.mp hB2
    subst hxy huv
    have hgtp := getTeamPositions_perm firstServe
      { teamA := [x, y], teamB := [u, v] } srv rcv 0 0 rfl rfl
    refine ⟨?_, ?_, ?_, ?_, ?_, ?_⟩
    · simpa [matchReducer, startMatchCase] using hgtp.1
    · simpa [matchReducer, startMatchCase] using hgtp.2
    · intro z hz
      cases firstServe with
      | A =>
          rcases safeIdx_pair x y srv with hs | hs <;>
          rcases safeIdx_pair u v rcv with hr | hr <;>
          · simp only [matchReducer, startMatchCase] at hz
            simp only [show ¬ (([x, y] : List String).length = 1) from by simp,
              if_neg, if_false, reduceIte, reduceCtorEq] at hz
            rw [hs, hr] at hz
            simp at hz
            rcases hz with h | h | h | h <;> simp [h, rosterOf]
      | B =>
          rcases safeIdx_pair u v srv with hs | hs <;>
          rcases safeIdx_pair x y rcv with hr | hr <;>
          · simp only [matchReducer, startMatchCase] at hz
            simp only [show ¬ (([x, y] : List String).length = 1) from by simp,
              if_neg, if_false, reduceIte, reduceCtorEq] at hz
            rw [hs, hr] at hz
            simp at hz
            rcases hz with h | h | h | h <;> simp [h, rosterOf]
    · intro _
      exact ⟨firstServe, srv, rcv, rfl, by simp [matchReducer, startMatchCase], hsrv,
        by simp [matchReducer, startMatchCase], hrcv⟩
    · intro h
      exact absurd rfl h
    · intro sn hsn
      simp [matchReducer, startMatchCase, initialState] at hsn

/-- CONTINUE_NEXT_SET with a server from one roster and a receiver from the
other re-establishes the state invariant. -/
theorem stateInv_continue (A0 B0 : List String) (hval : ValidRosters A0 B0)
    (state : MatchState) (t : Int) (srv rcv : String)
    (hpay : (srv ∈ A0 ∧ rcv ∈ B0) ∨ (srv ∈ B0 ∧ rcv ∈ A0))
    (hinv : StateInv A0 B0 state) :
    StateInv A0 B0 (matchReducer state (.continueNextSet t srv rcv)) := by
  obtain ⟨hpA, hpB, hord, _, _, _⟩ := hinv
  have hdisj := validRosters_disjoint A0 B0 hval
  have hlenA := hpA.length_eq
  have hlenB := hpB.length_eq
  have h2 : ¬ state.players.teamA.length = 1 → A0.length = 2 ∧ B0.length = 2 := by
    intro hsing
    rcases hval.1 with ⟨h, _⟩ | h
    · omega
    · exact h
  have hzmem : ∀ z, z = srv ∨ z = rcv → z ∈ A0 ∨ z ∈ B0 := by
    intro z hz
    rcases hz with rfl | rfl <;> rcases hpay with ⟨h1, h2⟩ | ⟨h1, h2⟩ <;> tauto
  show StateInv A0 B0 (continueNextSetCase state t srv rcv)
  unfold StateInv continueNextSetCase
  refine ⟨?_, ?_, ?_, ?_, ?_, ?_⟩ <;> dsimp only
  · by_cases hsing : state.players.teamA.length = 1
    · rw [if_pos hsing]
      exact hpA
    · rw [if_neg hsing]
      exact (getTeamPositions_perm _ state.players srv rcv 0 0
        (by omega) (by have := h2 hsing; omega)).1.trans hpA
  · by_cases hsing : state.players.teamA.length = 1
    · rw [if_pos hsing]
      exact hpB
    · rw [if_neg hsing]
      exact (getTeamPositions_perm _ state.players srv rcv 0 0
        (by omega) (by have := h2 hsing; omega)).2.trans hpB
  · intro z hz
    by_cases hsing : state.players.teamA.length = 1
    · rw [if_pos hsing] at hz
      simp at hz
      exact hzmem z hz
    · have hAB2 := h2 hsing
      have h1lt : 1 < state.players.teamA.length := by omega
      rw [if_neg hsing, if_pos h1lt] at hz
      simp at hz
      rcases hz with h | h | h | h
      · exact hzmem z (Or.inl h)
      · by_cases hrA : rcv ∈ state.players.teamA
        · rw [if_pos hrA] at h
          left
          rw [h] at *
          have hm := hpA.mem_iff.mp (getD_mem_of_lt (l := state.players.teamA)
            (n := 1 - safeIdx state.players.teamA rcv) ""
            (Nat.lt_of_le_of_lt (Nat.sub_le 1 _) (by omega)))
          simpa using hm
        · rw [if_neg hrA] at h
          right
          rw [h] at *
          have hm := hpB.mem_iff.mp (getD_mem_of_lt (l := state.players.teamB)
            (n := 1 - safeIdx state.players.teamB rcv) ""
            (Nat.lt_of_le_of_lt (Nat.sub_le 1 _) (by omega)))
          simpa using hm
      · by_cases hsA : srv ∈ state.players.teamA
        · rw [if_pos hsA] at h
          left
          rw [h] at *
          have hm := hpA.mem_iff.mp (getD_mem_of_lt (l := state.players.teamA)
            (n := 1 - safeIdx state.players.teamA srv) ""
            (Nat.lt_of_le_of_lt (Nat.sub_le 1 _) (by omega)))
          simpa using hm
        · rw [if_neg hsA] at h
          right
          rw [h] at *
          have hm := hpB.mem_iff.mp (getD_mem_of_lt (l := state.players.teamB)
            (n := 1 - safeIdx state.players.teamB srv) ""
            (Nat.lt_of_le_of_lt (Nat.sub_le 1 _) (by omega)))
          simpa using hm
      · exact hzmem z (Or.inr h)
  · intro _
    rcases hpay with ⟨hsA, hrB⟩ | ⟨hsB, hrA⟩
    · have hmem : srv ∈ state.players.teamA := hpA.mem_iff.mpr hsA
      rw [if_pos hmem]
      exact ⟨Side.A, srv, rcv, rfl, rfl, hsA, rfl, hrB⟩
    · have hmem : ¬ srv ∈ state.players.teamA := fun h => hdisj srv (hpA.mem_iff.mp h) hsB
      rw [if_neg hmem]
      exact ⟨Side.B, srv, rcv, rfl, rfl, hsB, rfl, hrA⟩
  · intro h
    exact absurd rfl h
  · intro sn hsn
    simp at hsn

/-- One protocol-respecting event preserves the state invariant. -/
theorem stateInv_step (A0 B0 : List String) (hval : ValidRosters A0 B0)
    (s : MatchState) (a : MatchAction) (hinv : StateInv A0 B0 s)
    (ha : OkayEvent A0 B0 s a) : StateInv A0 B0 (matchReducer s a) := by
  cases a with
  | increment side mp t =>
      obtain ⟨hpA, hpB, hord, hlive, hpend, hsnaps⟩ := hinv
      have hnofin : s.setFinishData = none := ha
      have hlok := hlive hnofin
      have hsnap : SnapInv A0 B0 (createSnapshot s) := ⟨hpA, hpB, hlok⟩
      show StateInv A0 B0 (incrementCase s side mp t)
      unfold incrementCase
      by_cases hfin : isSetFinishedPred s.scoringSystem
          (if side = Side.A then s.pointsA + 1 else s.pointsA)
          (if side = Side.B then s.pointsB + 1 else s.pointsB) mp
      · rw [if_pos hfin]
        exact incrementFinish_inv A0 B0 hval s t _ _ _ hpA hpB hord
      · rw [if_neg hfin]
        exact incrementInProgress_inv A0 B0 hval s side _ _ _ hpA hpB hord hlok
          hsnaps hsnap hnofin
  | continueNextSet t srv rcv => exact stateInv_continue A0 B0 hval s t srv rcv ha hinv
  | undo => exact stateInv_undo A0 B0 s hinv
  | resetHistory => exact stateInv_reset A0 B0 s hinv
  | startMatch np fs sn rn sys t => exact ha.elim
  | setSetFinishData d => exact ha.elim
  | clearPointHistory => exact ha.elim
  | setNextServer p => exact ha.elim
  | setNextReceiver p => exact ha.elim

/-- The invariant holds in every protocol-reachable state. -/
theorem stateInv_reach (A0 B0 : List String) (hval : ValidRosters A0 B0)
    (s : MatchState) (h : ReachC8 A0 B0 s) : StateInv A0 B0 s := by
  induction h with
  | start fs srv rcv sys t hsrv hrcv => exact stateInv_start A0 B0 hval fs srv rcv sys t hsrv hrcv
  | step s a hs ha ih => exact stateInv_step A0 B0 hval s a ih ha

/-- C8 counterexample.  The claim as stated fails: after a valid singles
`StartMatch` (rosters ["Alice"], ["Bob"]), a single `StartNextSet` event
naming "Alice" as both next server and next receiver produces a reachable
state whose receiver equals its server. -/
theorem receiver_equals_server_counterexample :
    (matchReducer (matchReducer initialState
        (.startMatch { teamA := ["Alice"], teamB := ["Bob"] } Side.A "Alice" "Bob" (some 21) 0))
      (.continueNextSet 0 "Alice" "Alice")).currentReceiver =
    (matchReducer (matchReducer initialState
        (.startMatch { teamA := ["Alice"], teamB := ["Bob"] } Side.A "Alice" "Bob" (some 21) 0))
      (.continueNextSet 0 "Alice" "Alice")).currentServer ∧
    (matchReducer (matchReducer initialState
        (.startMatch { teamA := ["Alice"], teamB := ["Bob"] } Side.A "Alice" "Bob" (some 21) 0))
      (.continueNextSet 0 "Alice" "Alice")).currentServer = some "Alice" :=
  ⟨rfl, rfl⟩

/-- C8 amended.  In every state reachable from a valid StartMatch (rosters
with distinct player names, 1 or 2 per side, server and receiver drawn from
the two rosters) by any sequence of IncrementPoint, Undo, StartNextSet and
ResetHistory events in which every StartNextSet names a server from one
side's roster and a receiver from the other side's roster, and
IncrementPoint is dispatched only while no set-finish is pending, the
current receiver is never equal to the current server. -/
theorem receiver_never_equals_server (A0 B0 : List String) (hval : ValidRosters A0 B0)
    (s : MatchState) (h : ReachC8 A0 B0 s) : s.currentReceiver ≠ s.currentServer :=
  stateInv_ne A0 B0 s hval (stateInv_reach A0 B0 hval s h)

/-- Witness for C8 (amended) on a concrete reachable doubles state. -/
theorem receiver_never_equals_server_witness :
    (matchReducer initialState (.startMatch { teamA := ["a1", "a2"], teamB := ["b1", "b2"] }
        Side.A "a1" "b1" (some 21) 0)).currentReceiver ≠
    (matchReducer initialState (.startMatch { teamA := ["a1", "a2"], teamB := ["b1", "b2"] }
        Side.A "a1" "b1" (some 21) 0)).currentServer :=
  receiver_never_equals_server ["a1", "a2"] ["b1", "b2"]
    ⟨Or.inr ⟨rfl, rfl⟩, by decide⟩ _
    (ReachC8.start Side.A "a1" "b1" (some 21) 0 (by decide) (by decide))

end BadmintonScore
